import Mathlib

/-!
Verification of the coursebuilder video pipeline.

This file gives a shallow embedding, in Lean 4, of the pure core of the
repository: the duration codec (`src/utils/time.ts`), the timestamp
extractor (`src/utils/timestamps.ts`), the segment builder
(`src/utils/segments.ts`), the difficulty classifier
(`src/utils/difficulty.ts`), the rate-limited request gateway
(`src/utils/apiThrottle.ts`, exported through `src/components/index.ts`),
and the API route orchestrator (`src/app/api/getVideos/route.ts`).

JavaScript numbers on these code paths are integers; they are embedded as
`Nat` (for counts, seconds, statuses) and `Int` (for clock arithmetic,
where subtraction can go negative).  Strings are Lean `String`s and the
regular-expression scans of the source are embedded as executable
character-list scanners that follow the semantics of the concrete regex
literals appearing in the source.  Asynchronous effects of the gateway
(sleeps, dispatches) are recorded in an explicit effect trace, and
`Date.now()` is an explicit clock stream `Nat → Int` indexed by the number
of clock reads so far.
-/

/-! ## Basic character and number utilities (JS primitive semantics) -/

/-- Digit characters, as printed by JavaScript number-to-string conversion. -/
def digitChar : Nat → Char
  | 0 => '0' | 1 => '1' | 2 => '2' | 3 => '3' | 4 => '4'
  | 5 => '5' | 6 => '6' | 7 => '7' | 8 => '8' | _ => '9'

/-- Numeric value of a digit character (used to read back digit runs). -/
def digitVal (c : Char) : Nat := c.toNat - 48

/-- Value of a digit string, most significant digit first (`Number("042") = 42`). -/
def digitsToNat (cs : List Char) : Nat :=
  cs.foldl (fun acc c => acc * 10 + digitVal c) 0

/-- Decimal digits of `n`, with explicit fuel so the kernel can evaluate it. -/
def natToDecimalAux : Nat → Nat → List Char
  | 0, _ => []
  | fuel + 1, n => if n < 10 then [digitChar n] else natToDecimalAux fuel (n / 10) ++ [digitChar (n % 10)]

/-- Decimal digits of `n` (JavaScript `String(n)` for a non-negative integer). -/
def natToDecimal (n : Nat) : List Char := natToDecimalAux (n + 1) n

/-- JavaScript `String(n)` for a non-negative integer. -/
def natStr (n : Nat) : String := String.mk (natToDecimal n)

/-- The whitespace class of JavaScript regular expressions (`\s`) and `trim`. -/
def jsIsSpace (c : Char) : Bool :=
  c == ' ' || c == '\t' || c == '\n' || c == '\r' ||
  c.toNat == 0x0b || c.toNat == 0x0c || c.toNat == 0xa0 ||
  c.toNat == 0x2028 || c.toNat == 0x2029 || c.toNat == 0xfeff

/-- The `.` class of JavaScript regular expressions: any char except a line terminator. -/
def jsIsDot (c : Char) : Bool :=
  !(c == '\n' || c == '\r' || c.toNat == 0x2028 || c.toNat == 0x2029)

/-- Whether `needle` starts `hay` (character-wise). -/
def startsWithChars : List Char → List Char → Bool
  | [], _ => true
  | _ :: _, [] => false
  | a :: as, b :: bs => a == b && startsWithChars as bs

/-- Whether `hay` has `needle` as a contiguous run (JavaScript `String.prototype.includes`). -/
def containsSub (hay needle : List Char) : Bool :=
  match hay with
  | [] => needle.isEmpty
  | _ :: t => startsWithChars needle hay || containsSub t needle

/-- JavaScript `text.includes(needle)`. -/
def jsIncludes (text needle : String) : Bool := containsSub text.toList needle.toList

/-- JavaScript `String.prototype.toLowerCase` (ASCII range, which covers the
keyword tables and query keywords of this repository). -/
def jsToLower (s : String) : String := String.mk (s.toList.map Char.toLower)

/-- JavaScript `String.prototype.trim`. -/
def jsTrim (cs : List Char) : List Char :=
  ((cs.dropWhile jsIsSpace).reverse.dropWhile jsIsSpace).reverse

/-- JavaScript `parseInt` on the strings this code feeds it (decimal digit
prefixes); `none` models `NaN`, under which every `>` comparison is false. -/
def jsParseInt (s : String) : Option Nat :=
  let ds := s.toList.takeWhile Char.isDigit
  if ds.isEmpty then none else some (digitsToNat ds)

/-! ## Duration codec (`src/utils/time.ts`) -/

/-- Position of the first literal `PT` in the character stream; returns the
suffix after it.  This is where the regex
`PT(?:(\d+)H)?(?:(\d+)M)?(?:(\d+)S)?` of `parseDurationToSeconds` first
matches (every component being optional, the match succeeds at the first
`PT`). -/
def findPT : List Char → Option (List Char)
  | 'P' :: 'T' :: rest => some rest
  | _ :: rest => findPT rest
  | [] => none

/-- One optional component `(?:(\d+)X)?` of the duration regex: a maximal
digit run immediately followed by the unit letter.  On failure the group is
skipped and no input is consumed, exactly as for the optional regex group. -/
def parseGroup (unit : Char) (cs : List Char) : Option Nat × List Char :=
  let ds := cs.takeWhile Char.isDigit
  if ds.isEmpty then (none, cs)
  else
    match cs.drop ds.length with
    | c :: rest => if c == unit then (some (digitsToNat ds), rest) else (none, cs)
    | [] => (none, cs)

/-- Function `parseDurationToSeconds` from `src/utils/time.ts`: parse the provider
duration notation `PT#H#M#S` to seconds; malformed input (no match) yields 0,
missing components default to 0 (`parseInt(match[i] || '0')`). -/
def parseDurationToSeconds (duration : String) : Nat :=
  match findPT duration.toList with
  | none => 0
  | some rest =>
    let (h, r1) := parseGroup 'H' rest
    let (m, r2) := parseGroup 'M' r1
    let (s, _) := parseGroup 'S' r2
    h.getD 0 * 3600 + m.getD 0 * 60 + s.getD 0

/-- Function `formatSecondsToDuration` from `src/utils/time.ts`: format seconds back to
`PT#H#M#S`, omitting zero components. -/
def formatSecondsToDuration (seconds : Nat) : String :=
  let hours := seconds / 3600
  let minutes := seconds % 3600 / 60
  let secs := seconds % 60
  let result := "PT"
  let result := if hours > 0 then result ++ natStr hours ++ "H" else result
  let result := if minutes > 0 then result ++ natStr minutes ++ "M" else result
  let result := if secs > 0 then result ++ natStr secs ++ "S" else result
  result

/-- Function `isLongVideo` from `src/utils/time.ts`: true iff the parsed duration is at
least 30 minutes.  The source compares `hours * 60 + minutes + seconds / 60`
(a fraction) against 30; embedded fraction-free by scaling by 60. -/
def isLongVideo (duration : String) : Bool :=
  match findPT duration.toList with
  | none => false
  | some rest =>
    let (h, r1) := parseGroup 'H' rest
    let (m, r2) := parseGroup 'M' r1
    let (s, _) := parseGroup 'S' r2
    (h.getD 0 * 60 + m.getD 0) * 60 + s.getD 0 ≥ 30 * 60

/-! ## Timestamp extractor (`src/utils/timestamps.ts`)

The extractor applies five global regexes over the description.  Each is
embedded as a position-by-position scanner: `RegExp.exec` with the `g` flag
finds the leftmost match at or after `lastIndex`, then continues from the end
of the match.  The matchers below return `(timeToken, title, rest)` where
`rest` is the input after the full match. -/

/-- A chapter marker `(time, title)` extracted from a description. -/
structure Marker where
  time : Nat
  title : String
deriving DecidableEq, Repr

/-- Match `\d{1,2}:\d{2}` at the current position (greedy two-digit first
component first; the alternatives are mutually exclusive because the second
character is either a digit or a colon). -/
def matchMMSS (cs : List Char) : Option (List Char × List Char) :=
  match cs with
  | a :: b :: c :: d :: e :: rest =>
    if a.isDigit && b.isDigit && c == ':' && d.isDigit && e.isDigit then
      some ([a, b, c, d, e], rest)
    else if a.isDigit && b == ':' && c.isDigit && d.isDigit then
      some ([a, b, c, d], e :: rest)
    else none
  | [a, b, c, d] =>
    if a.isDigit && b == ':' && c.isDigit && d.isDigit then some ([a, b, c, d], []) else none
  | _ => none

/-- Match `\d{1,2}:\d{2}:\d{2}` at the current position. -/
def matchHMS (cs : List Char) : Option (List Char × List Char) :=
  match cs with
  | a :: b :: c :: d :: e :: f :: g :: h :: rest =>
    if a.isDigit && b.isDigit && c == ':' && d.isDigit && e.isDigit && f == ':' &&
        g.isDigit && h.isDigit then
      some ([a, b, c, d, e, f, g, h], rest)
    else if a.isDigit && b == ':' && c.isDigit && d.isDigit && e == ':' && f.isDigit &&
        g.isDigit then
      some ([a, b, c, d, e, f, g], h :: rest)
    else none
  | [a, b, c, d, e, f, g] =>
    if a.isDigit && b == ':' && c.isDigit && d.isDigit && e == ':' && f.isDigit &&
        g.isDigit then
      some ([a, b, c, d, e, f, g], [])
    else none
  | _ => none

/-- Largest index `j` of `l` holding a `.`-class character (the backtracking
order of a greedy `\s+`/`\s*` followed by `(.+)`: the longest whitespace run
whose remainder still matches is preferred). -/
def lastDotIndex : List Char → Option Nat
  | [] => none
  | c :: cs =>
    match lastDotIndex cs with
    | some j => some (j + 1)
    | none => if jsIsDot c then some 0 else none

/-- Match `(.+)` at the current position: a maximal nonempty run of `.`-class
characters.  Returns the captured run and the rest of the input. -/
def matchDotPlus (cs : List Char) : Option (List Char × List Char) :=
  let run := cs.takeWhile jsIsDot
  if run.isEmpty then none else some (run, cs.drop run.length)

/-- Match `\s*(.+)` at the current position, with the greedy backtracking of
the JavaScript engine: the whitespace run gives back characters (longest
viable run first) until `(.+)` can consume at least one character. -/
def matchSpaceStarTitle (cs : List Char) : Option (List Char × List Char) :=
  let ws := cs.takeWhile jsIsSpace
  match matchDotPlus (cs.drop ws.length) with
  | some (t, r) => some (t, r)
  | none =>
    -- the whole remaining input is whitespace; give characters back to `(.+)`
    match lastDotIndex ws with
    | some k =>
      let suffix := ws.drop k
      let t := suffix.takeWhile jsIsDot
      some (t, suffix.drop t.length)
    | none => none

/-- Match `\s+(.+)` at the current position (as `matchSpaceStarTitle`, but the
whitespace run must keep at least one character). -/
def matchSpacePlusTitle (cs : List Char) : Option (List Char × List Char) :=
  let ws := cs.takeWhile jsIsSpace
  if ws.isEmpty then none
  else
    match matchDotPlus (cs.drop ws.length) with
    | some (t, r) => some (t, r)
    | none =>
      match lastDotIndex (ws.drop 1) with
      | some j =>
        let suffix := ws.drop (j + 1)
        let t := suffix.takeWhile jsIsDot
        some (t, suffix.drop t.length)
      | none => none

/-- Match `\s*-\s*(.+)` at the current position.  Whitespace is never `-`, so
the first `\s*` cannot give characters back. -/
def matchDashTitle (cs : List Char) : Option (List Char × List Char) :=
  let ws := cs.takeWhile jsIsSpace
  match cs.drop ws.length with
  | '-' :: r => matchSpaceStarTitle r
  | _ => none

/-- Pattern `/(\d{1,2}:\d{2})\s+(.+)/g`. -/
def matchAtP1 (cs : List Char) : Option (List Char × List Char × List Char) :=
  match matchMMSS cs with
  | some (t, r) =>
    match matchSpacePlusTitle r with
    | some (ti, rest) => some (t, ti, rest)
    | none => none
  | none => none

/-- Pattern `/(\d{1,2}:\d{2})\s*-\s*(.+)/g`. -/
def matchAtP2 (cs : List Char) : Option (List Char × List Char × List Char) :=
  match matchMMSS cs with
  | some (t, r) =>
    match matchDashTitle r with
    | some (ti, rest) => some (t, ti, rest)
    | none => none
  | none => none

/-- Pattern `/\[(\d{1,2}:\d{2})\]\s*(.+)/g`. -/
def matchAtP3 (cs : List Char) : Option (List Char × List Char × List Char) :=
  match cs with
  | '[' :: r1 =>
    match matchMMSS r1 with
    | some (t, r2) =>
      match r2 with
      | ']' :: r3 =>
        match matchSpaceStarTitle r3 with
        | some (ti, rest) => some (t, ti, rest)
        | none => none
      | _ => none
    | none => none
  | _ => none

/-- Pattern `/(\d{1,2}:\d{2}:\d{2})\s+(.+)/g`. -/
def matchAtP4 (cs : List Char) : Option (List Char × List Char × List Char) :=
  match matchHMS cs with
  | some (t, r) =>
    match matchSpacePlusTitle r with
    | some (ti, rest) => some (t, ti, rest)
    | none => none
  | none => none

/-- Pattern `/(\d{1,2}:\d{2}:\d{2})\s*-\s*(.+)/g`. -/
def matchAtP5 (cs : List Char) : Option (List Char × List Char × List Char) :=
  match matchHMS cs with
  | some (t, r) =>
    match matchDashTitle r with
    | some (ti, rest) => some (t, ti, rest)
    | none => none
  | none => none

/-- The `while ((match = pattern.exec(description)) !== null)` loop: find the
leftmost match at or after the current position, emit it, continue after it.
Fuel bounds the recursion; every match consumes at least one character, so
fuel equal to the input length never runs out. -/
def scanWith (matchAt : List Char → Option (List Char × List Char × List Char)) :
    Nat → List Char → List (List Char × List Char)
  | 0, _ => []
  | _, [] => []
  | fuel + 1, c :: cs =>
    match matchAt (c :: cs) with
    | some (t, ti, rest) => (t, ti) :: scanWith matchAt fuel rest
    | none => scanWith matchAt fuel cs

/-- All raw `(timeToken, title)` matches of the five patterns, in pattern
order (the `for (const pattern of patterns)` loop). -/
def rawMatches (desc : List Char) : List (List Char × List Char) :=
  scanWith matchAtP1 desc.length desc ++ scanWith matchAtP2 desc.length desc ++
  scanWith matchAtP3 desc.length desc ++ scanWith matchAtP4 desc.length desc ++
  scanWith matchAtP5 desc.length desc

/-- Split a character list on `:` (JavaScript `timeStr.split(':')`). -/
def splitOnColon : List Char → List (List Char)
  | [] => [[]]
  | ':' :: rest =>
    [] :: splitOnColon rest
  | c :: rest =>
    match splitOnColon rest with
    | p :: ps => (c :: p) :: ps
    | [] => [[c]]

/-- Function `parseTimeStringToSeconds` (module-local helper of
`src/utils/timestamps.ts`): `MM:SS` or `HH:MM:SS` to seconds; anything else
is 0.  Its arguments are always digit groups captured by the patterns, on
which JavaScript `Number` is `digitsToNat`. -/
def parseTimeStringToSeconds (timeStr : List Char) : Nat :=
  match splitOnColon timeStr with
  | [m, s] => digitsToNat m * 60 + digitsToNat s
  | [h, m, s] => digitsToNat h * 3600 + digitsToNat m * 60 + digitsToNat s
  | _ => 0

/-- Stable insertion of a marker into a time-sorted list (equal times keep
their existing order, as for the stable `Array.prototype.sort`). -/
def insertByTime (x : Marker) : List Marker → List Marker
  | [] => [x]
  | y :: ys => if x.time ≤ y.time then x :: y :: ys else y :: insertByTime x ys

/-- Stable sort ascending by time (`timestamps.sort((a, b) => a.time - b.time)`). -/
def sortByTime : List Marker → List Marker
  | [] => []
  | x :: xs => insertByTime x (sortByTime xs)

/-- The closing
`.filter((timestamp, index, arr) => index === 0 || timestamp.time !== arr[index - 1].time)`:
keep an element iff it is first or differs in time from its predecessor in
the sorted array. -/
def dedupAdjAux (prev : Marker) : List Marker → List Marker
  | [] => []
  | y :: ys => if y.time == prev.time then dedupAdjAux y ys else y :: dedupAdjAux y ys

/-- Remove consecutive duplicate times, keeping first occurrences. -/
def dedupAdj : List Marker → List Marker
  | [] => []
  | x :: xs => x :: dedupAdjAux x xs

/-- Function `extractTimestampsFromDescription` from `src/utils/timestamps.ts`. -/
def extractTimestampsFromDescription (description : String) : List Marker :=
  let timestamps := (rawMatches description.toList).filterMap fun m =>
    let timeStr := m.1
    let title := jsTrim m.2
    let timeInSeconds := parseTimeStringToSeconds timeStr
    if timeInSeconds > 0 && title.length > 0 then
      some ⟨timeInSeconds, String.mk title⟩
    else none
  dedupAdj (sortByTime timestamps)

/-! ## Segment builder (`src/utils/timestamps.ts`, `src/utils/segments.ts`) -/

/-- A `(startTime, endTime, title)` video segment. -/
structure Segment where
  startTime : Nat
  endTime : Nat
  title : String
deriving DecidableEq, Repr

/-- Function `createSegmentsFromTimestamps` from `src/utils/timestamps.ts`: segment `i`
runs from marker `i` to marker `i + 1`, or to the total duration for the last
marker (`nextTimestamp ? nextTimestamp.time : totalSeconds`). -/
def createSegmentsFromTimestamps (timestamps : List Marker) (totalSeconds : Nat) :
    List Segment :=
  match timestamps with
  | [] => []
  | t :: rest =>
    let endTime := match rest with
      | [] => totalSeconds
      | u :: _ => u.time
    ⟨t.time, endTime, t.title⟩ :: createSegmentsFromTimestamps rest totalSeconds

/-- Function `generateSegmentTitles` from `src/utils/segments.ts`: a fixed five-title
curriculum chosen by keyword scan of the lowercased query. -/
def generateSegmentTitles (query : String) (_segmentCount : Nat) : List String :=
  let topic := jsToLower query
  if jsIncludes topic "react" then
    ["Components & JSX", "State & Props", "Hooks & Effects",
     "Routing & Navigation", "Deployment & Best Practices"]
  else if jsIncludes topic "javascript" then
    ["Variables & Functions", "Objects & Arrays", "DOM Manipulation",
     "Async Programming", "Modern ES6+ Features"]
  else if jsIncludes topic "python" then
    ["Syntax & Variables", "Data Structures", "Functions & Classes",
     "File Handling & Libraries", "Advanced Concepts"]
  else if jsIncludes topic "html" || jsIncludes topic "css" then
    ["HTML Basics", "CSS Styling", "Responsive Design",
     "Advanced CSS", "Modern Web Development"]
  else if jsIncludes topic "node" then
    ["Node.js Basics", "Express.js Framework", "Database Integration",
     "API Development", "Production Deployment"]
  else
    ["Introduction & Setup", "Basic Concepts", "Core Features",
     "Advanced Topics", "Best Practices & Conclusion"]

/-- Lookup `segmentTitles[i]` with the `Part n` fallback — the fallback fires when the
index is out of range or the stored title is the empty string (falsy). -/
def titleAt (titles : List String) (i : Nat) : String :=
  match titles.get? i with
  | some t => if t == "" then "Part " ++ natStr (i + 1) else t
  | none => "Part " ++ natStr (i + 1)

/-- Function `createEqualSegments` from `src/utils/segments.ts`: five segments of
`Math.floor(totalSeconds / 5)` seconds, each end clamped with
`Math.min((i + 1) * segmentDuration, totalSeconds)`. -/
def createEqualSegments (totalSeconds : Nat) (query : String) : List Segment :=
  let segmentCount := 5
  let segmentDuration := totalSeconds / segmentCount
  let segmentTitles := generateSegmentTitles query segmentCount
  (List.range segmentCount).map fun i =>
    ⟨i * segmentDuration, min ((i + 1) * segmentDuration) totalSeconds,
     titleAt segmentTitles i⟩

/-! ## Difficulty classifier (`src/utils/difficulty.ts`) -/

/-- The input to the classifier: anything carrying a `title` and a
`description` (TypeScript structural typing). -/
structure TitledItem where
  title : String
  description : String
deriving DecidableEq, Repr

/-- Table `DIFFICULTY_KEYWORDS.beginner`. -/
def beginnerKeywords : List String :=
  ["beginner", "basics", "introduction", "getting started", "tutorial",
   "learn", "how to", "step by step", "for beginners"]

/-- Table `DIFFICULTY_KEYWORDS.intermediate`. -/
def intermediateKeywords : List String :=
  ["intermediate", "advanced", "deep dive", "master", "complete guide",
   "comprehensive", "in-depth"]

/-- Table `DIFFICULTY_KEYWORDS.expert`. -/
def expertKeywords : List String :=
  ["expert", "professional", "production", "enterprise", "optimization",
   "performance", "architecture"]

/-- The lowercased search text `` `${title} ${description}` `` the classifier
scans. -/
def difficultyText (video : TitledItem) : String :=
  jsToLower video.title ++ " " ++ jsToLower video.description

/-- Function `calculateDifficultyScore` from `src/utils/difficulty.ts`: beginner
keywords first (0), then expert (2), then intermediate (1), defaulting to 1.
Each `for … of …  { if (text.includes(keyword)) return … }` loop is the
corresponding `List.any`. -/
def calculateDifficultyScore (video : TitledItem) (_query : String) : Nat :=
  let text := difficultyText video
  if beginnerKeywords.any (fun keyword => jsIncludes text keyword) then 0
  else if expertKeywords.any (fun keyword => jsIncludes text keyword) then 2
  else if intermediateKeywords.any (fun keyword => jsIncludes text keyword) then 1
  else 1

/-! ## Rate-limited request gateway (`src/utils/apiThrottle.ts`)

`Date.now()` is modelled as a clock stream `clock : Nat → Int` read at an
index held in the gateway state (one read at the top of
`waitForRateLimit`, one in `updateRequestTracking`).  Cooperative waits
(`await this.delay(ms)`) and dispatches of the wrapped call are recorded in
an effect trace. -/

/-- Mutable fields of the `ApiThrottler` singleton, plus the clock read
counter. -/
structure GatewayState where
  lastRequestTime : Int := 0
  requestCount : Nat := 0
  requestTimes : List Int := []
  clockIdx : Nat := 0
deriving DecidableEq, Repr

/-- Observable effects of one `throttle` run: sleeps and dispatches of the
wrapped call (with the attempt number). -/
inductive Effect where
  | sleep (ms : Int)
  | call (attempt : Nat)
deriving DecidableEq, Repr

/-- One behavior of the wrapped `apiCall()` at some attempt: either the
returned promise rejects (`thrown`), or an HTTP response arrives carrying a
status, a body (`none` when `response.json()` rejects), the body's
`error?.message` field, an optional `Retry-After` header (in seconds), and
the message of the JSON parse error raised on the success path when the body
is unreadable. -/
inductive CallOutcome (α : Type) where
  | thrown (msg : String)
  | resp (status : Nat) (body? : Option α) (errMsg? : Option String)
      (retryAfter? : Option Nat) (jsonErrMsg : String)
deriving DecidableEq

/-- The `ApiResponse<T>` record returned by `throttle`. -/
structure ApiResponse (α : Type) where
  data? : Option α := none
  error? : Option String := none
  status : Nat
deriving DecidableEq

/-- The `ThrottleOptions` record. -/
structure ThrottleOptions where
  delayMs : Int := 100
  maxRetries : Nat := 3
  backoffMultiplier : Int := 2
deriving DecidableEq, Repr

/-- Method `waitForRateLimit`: prune window entries older than 60 s, sleep when the
50-per-minute window is full, then enforce the 100 ms inter-request floor.
Returns the updated state and the sleeps performed. -/
def waitForRateLimit (clock : Nat → Int) (st : GatewayState) :
    GatewayState × List Effect :=
  let now := clock st.clockIdx
  let st := { st with clockIdx := st.clockIdx + 1 }
  let oneMinuteAgo := now - 60000
  let times := st.requestTimes.dropWhile (fun t => t < oneMinuteAgo)
  let capSleeps :=
    if times.length ≥ 50 then
      match times.head? with
      | some oldestRequest =>
        let waitTime := 60000 - (now - oldestRequest) + 1000
        if waitTime > 0 then [Effect.sleep waitTime] else []
      | none => []
    else []
  let timeSinceLastRequest := now - st.lastRequestTime
  let floorSleeps :=
    if timeSinceLastRequest < 100 then [Effect.sleep (100 - timeSinceLastRequest)] else []
  ({ st with requestTimes := times }, capSleeps ++ floorSleeps)

/-- Method `updateRequestTracking`: unconditionally record the current time into the
sliding window and bump the counters. -/
def updateRequestTracking (clock : Nat → Int) (st : GatewayState) : GatewayState :=
  let now := clock st.clockIdx
  { st with
    clockIdx := st.clockIdx + 1
    lastRequestTime := now
    requestTimes := st.requestTimes ++ [now]
    requestCount := st.requestCount + 1 }

/-- Method `getRetryAfterDelay`: the `Retry-After` header in seconds times 1000, or
60 000 ms when absent. -/
def getRetryAfterDelay (retryAfter? : Option Nat) : Int :=
  match retryAfter? with
  | some s => (s : Int) * 1000
  | none => 60000

/-- The result block after the loop:
`{ error: lastError?.message || 'API call failed after all retries', status: 500 }`
(the fallback also fires on an empty message, which is falsy). -/
def mkFinal (α : Type) (lastError : Option String) : ApiResponse α :=
  ⟨none, some (match lastError with
    | some m => if m == "" then "API call failed after all retries" else m
    | none => "API call failed after all retries"), 500⟩

/-- What one loop iteration decides: return from `throttle` (`done`), or fall
through to the next iteration (`toNext`, carrying the backoff delay and
`lastError` for the next attempt). -/
inductive StepControl (α : Type) where
  | done (r : ApiResponse α)
  | toNext (delay : Int) (lastError : Option String)
deriving DecidableEq

/-- The `catch` block of the loop body: record the error; break (and return
the 500 result) on messages containing `quota`, `400` or `401`; otherwise
sleep the backoff delay — only when attempts remain — and continue with the
delay doubled. -/
def catchBranch (α : Type) (maxRetries : Nat) (backoffMultiplier : Int) (attempt : Nat)
    (delay : Int) (msg : String) (st : GatewayState) (effs : List Effect) :
    StepControl α × GatewayState × List Effect :=
  if jsIncludes msg "quota" || jsIncludes msg "400" || jsIncludes msg "401" then
    (.done (mkFinal α (some msg)), st, effs)
  else if attempt < maxRetries then
    (.toNext (delay * backoffMultiplier) (some msg), st, effs ++ [Effect.sleep delay])
  else
    (.toNext delay (some msg), st, effs)

/-- Whether the 403 body signals quota exhaustion:
`errorData.error?.message?.includes('quota')`, where `errorData` is `{}` when
`response.json()` rejected. -/
def quotaBody (α : Type) (body? : Option α) (errMsg? : Option String) : Bool :=
  match body?, errMsg? with
  | some _, some m => jsIncludes m "quota"
  | _, _ => false

/-- The message thrown for a non-ok, non-429 response:
`errorData.error?.message || 'HTTP ' + response.status`.  For a 403 the body
was already consumed by the quota check, so the second `response.json()`
rejects into `{}` and the `HTTP 403` fallback always fires. -/
def otherErrorMsg (α : Type) (status : Nat) (body? : Option α)
    (errMsg? : Option String) : String :=
  let fromBody : Option String :=
    if status == 403 then none
    else match body? with
      | some _ => errMsg?
      | none => none
  match fromBody with
  | some m => if m == "" then "HTTP " ++ natStr status else m
  | none => "HTTP " ++ natStr status

/-- One iteration of the `for (attempt = 0; attempt <= maxRetries; …)` body of
`ApiThrottler.throttle`: rate-limit wait, dispatch, tracking update, then the
429 / 403-quota / ok / other-error cascade, with every `throw` routed into
`catchBranch`. -/
def attemptStep (α : Type) (clock : Nat → Int) (apiCall : Nat → CallOutcome α)
    (maxRetries : Nat) (backoffMultiplier : Int) (attempt : Nat) (delay : Int)
    (lastError : Option String) (st : GatewayState) :
    StepControl α × GatewayState × List Effect :=
  let (st1, waitEffs) := waitForRateLimit clock st
  let effs := waitEffs ++ [Effect.call attempt]
  match apiCall attempt with
  | .thrown msg =>
    -- the call itself rejected before any response: tracking is not reached
    catchBranch α maxRetries backoffMultiplier attempt delay msg st1 effs
  | .resp status body? errMsg? retryAfter? jsonErrMsg =>
    let st2 := updateRequestTracking clock st1
    if status == 429 then
      (.toNext delay lastError, st2, effs ++ [Effect.sleep (getRetryAfterDelay retryAfter?)])
    else if status == 403 && quotaBody α body? errMsg? then
      catchBranch α maxRetries backoffMultiplier attempt delay
        "YouTube API quota exceeded. Please try again later." st2 effs
    else if 200 ≤ status && status ≤ 299 then
      match body? with
      | some d => (.done ⟨some d, none, status⟩, st2, effs)
      | none => catchBranch α maxRetries backoffMultiplier attempt delay jsonErrMsg st2 effs
    else
      catchBranch α maxRetries backoffMultiplier attempt delay
        (otherErrorMsg α status body? errMsg?) st2 effs

/-- The retry loop, with fuel `maxRetries + 1 - attempt`; when the fuel runs
out the loop has exited and the generic 500 result is returned. -/
def throttleGo (α : Type) (clock : Nat → Int) (apiCall : Nat → CallOutcome α)
    (maxRetries : Nat) (backoffMultiplier : Int) :
    Nat → Nat → Int → Option String → GatewayState →
    ApiResponse α × GatewayState × List Effect
  | 0, _, _, lastError, st => (mkFinal α lastError, st, [])
  | fuel + 1, attempt, delay, lastError, st =>
    match attemptStep α clock apiCall maxRetries backoffMultiplier attempt delay lastError st with
    | (.done r, st', effs) => (r, st', effs)
    | (.toNext delay' lastError', st', effs) =>
      let (r, st'', effs') :=
        throttleGo α clock apiCall maxRetries backoffMultiplier fuel (attempt + 1)
          delay' lastError' st'
      (r, st'', effs ++ effs')

/-- Method `ApiThrottler.throttle` from `src/utils/apiThrottle.ts`. -/
def throttle (α : Type) (clock : Nat → Int) (apiCall : Nat → CallOutcome α)
    (options : ThrottleOptions) (st : GatewayState) :
    ApiResponse α × GatewayState × List Effect :=
  throttleGo α clock apiCall options.maxRetries options.backoffMultiplier
    (options.maxRetries + 1) 0 options.delayMs none st

/-- The options `throttledYouTubeApiCall` passes for every YouTube API call. -/
def ytOptions : ThrottleOptions := ⟨100, 3, 2⟩

/-! ## Pipeline orchestrator (`src/app/api/getVideos/route.ts`)

The outbound network is abstracted as an environment mapping each call site
(query index 0–3, search or details) and attempt number to a `CallOutcome`;
the shared throttler state threads through every call in program order. -/

/-- Thumbnail URL set of a video. -/
structure Thumbs where
  defaultUrl : String
  mediumUrl : String
  highUrl : String
deriving DecidableEq, Repr

/-- One item of the batch-details response (snippet + contentDetails +
statistics). -/
structure DetailItem where
  id : String
  title : String
  description : String
  channelTitle : String
  publishedAt : String
  thumbs : Thumbs
  duration : String
  viewCount : String
deriving DecidableEq, Repr

/-- The `YouTubeVideo` record of the route module (selection result and
output unit).  Optional fields are the segment-only extras. -/
structure YouTubeVideo where
  id : String
  title : String
  description : String
  channelTitle : String
  publishedAt : String
  thumbs : Thumbs
  contentDuration : String
  viewCountStat : String
  duration? : Option String := none
  viewCount? : Option String := none
  startTime? : Option Nat := none
  endTime? : Option Nat := none
  difficultyScore? : Option Nat := none
deriving DecidableEq, Repr

/-- One item of the search response. -/
structure SearchItem where
  videoId : String
deriving DecidableEq, Repr

/-- Body of a search response. -/
structure SearchResponse where
  items : List SearchItem
deriving DecidableEq, Repr

/-- Body of a batch-details response. -/
structure DetailsResponse where
  items : List DetailItem
deriving DecidableEq, Repr

/-- The outside world as seen by one request: API key presence and the
outcome of each attempt of each outbound call. -/
structure PipelineEnv where
  apiKey : Bool
  searchCall : Nat → Nat → CallOutcome SearchResponse
  detailsCall : Nat → Nat → CallOutcome DetailsResponse
  clock : Nat → Int

/-- Function `sortVideosByDifficulty` from `src/utils/difficulty.ts`: score every
video, then stable-sort ascending by score (`a.difficultyScore -
b.difficultyScore` under the stable `Array.prototype.sort`).  The route
calls it without the `query` argument, which the scorer ignores. -/
def insertByScore (x : YouTubeVideo) : List YouTubeVideo → List YouTubeVideo
  | [] => [x]
  | y :: ys =>
    if x.difficultyScore?.getD 0 ≤ y.difficultyScore?.getD 0 then x :: y :: ys
    else y :: insertByScore x ys

/-- Stable insertion sort by difficulty score. -/
def sortByScore : List YouTubeVideo → List YouTubeVideo
  | [] => []
  | x :: xs => insertByScore x (sortByScore xs)

/-- Function `sortVideosByDifficulty` (scoring map followed by the stable sort). -/
def sortVideosByDifficulty (videos : List YouTubeVideo) : List YouTubeVideo :=
  sortByScore (videos.map fun video =>
    { video with
      difficultyScore? := some (calculateDifficultyScore ⟨video.title, video.description⟩ "") })

/-- Function `getFallbackVideos`: the degraded mode returns an empty list. -/
def getFallbackVideos (_query : String) : List YouTubeVideo := []

/-- A thumbnail URL with the `||`-fallback of `splitVideoIntoSegments`
(the stored URL unless it is falsy, i.e. empty). -/
def thumbOr (url : String) (fallback : String) : String :=
  if url == "" then fallback else url

/-- Function `splitVideoIntoSegments` from the route module: extract markers from the
description, build segments (equal split when no marker), and convert each
segment into a `YouTubeVideo` carrying the parent metadata. -/
def splitVideoIntoSegments (video : YouTubeVideo) (query : String) : List YouTubeVideo :=
  let totalSeconds := parseDurationToSeconds video.contentDuration
  let timestamps := extractTimestampsFromDescription video.description
  let segments :=
    if timestamps.length > 0 then createSegmentsFromTimestamps timestamps totalSeconds
    else createEqualSegments totalSeconds query
  segments.enum.map fun (i, segment) =>
    let segDuration := formatSecondsToDuration (segment.endTime - segment.startTime)
    { id := video.id
      title := segment.title
      description := "Segment " ++ natStr (i + 1) ++ ": " ++
        String.mk (video.description.toList.take 100) ++ "..."
      channelTitle := video.channelTitle
      publishedAt := video.publishedAt
      thumbs :=
        ⟨thumbOr video.thumbs.defaultUrl ("https://img.youtube.com/vi/" ++ video.id ++ "/default.jpg"),
         thumbOr video.thumbs.mediumUrl ("https://img.youtube.com/vi/" ++ video.id ++ "/mqdefault.jpg"),
         thumbOr video.thumbs.highUrl ("https://img.youtube.com/vi/" ++ video.id ++ "/hqdefault.jpg")⟩
      contentDuration := segDuration
      viewCountStat := if video.viewCountStat == "" then "0" else video.viewCountStat
      duration? := some segDuration
      viewCount? := some (if video.viewCountStat == "" then "0" else video.viewCountStat)
      startTime? := some segment.startTime
      endTime? := some segment.endTime }

/-- Promote a details item to the `YouTubeVideo` record the selection loop
builds for the current best candidate. -/
def mkCandidate (v : DetailItem) : YouTubeVideo :=
  { id := v.id, title := v.title, description := v.description,
    channelTitle := v.channelTitle, publishedAt := v.publishedAt,
    thumbs := v.thumbs, contentDuration := v.duration, viewCountStat := v.viewCount }

/-- The inner selection loop over one details response: keep the candidate
with the highest view count among those whose duration classifies as long
(`viewCount > maxViews && isLongVideo(duration)`).  A view count that parses
to `NaN` never wins a `>` comparison. -/
def selectBest (items : List DetailItem) (acc : Option YouTubeVideo × Nat) :
    Option YouTubeVideo × Nat :=
  items.foldl (fun (best, maxViews) video =>
    match jsParseInt (if video.viewCount == "" then "0" else video.viewCount) with
    | some viewCount =>
      if viewCount > maxViews && isLongVideo video.duration then
        (some (mkCandidate video), viewCount)
      else (best, maxViews)
    | none => (best, maxViews)) acc

/-- One iteration of the `for (const searchQuery of crashCourseQueries)` loop:
a throttled search call and, when it returns items, a throttled details call
whose items feed the selection.  Error results are only logged and skipped.
The per-query `try`/`catch` has no reachable throw site (the gateway never
throws) and is not represented. -/
def processQuery (env : PipelineEnv) (queryIdx : Nat)
    (acc : (Option YouTubeVideo × Nat) × GatewayState) :
    (Option YouTubeVideo × Nat) × GatewayState :=
  let (best, st) := acc
  let (searchResult, st1, _) :=
    throttle SearchResponse env.clock (env.searchCall queryIdx) ytOptions st
  match searchResult.data? with
  | some d =>
    if !d.items.isEmpty then
      let (detailsResult, st2, _) :=
        throttle DetailsResponse env.clock (env.detailsCall queryIdx) ytOptions st1
      match detailsResult.data? with
      | some detailsData => (selectBest detailsData.items best, st2)
      | none => (best, st2)
    else (best, st1)
  | none => (best, st1)

/-- The body of `scrapeYouTubeVideos`: fall back on a missing API key,
otherwise run the four query variants and either split the best video or
fall back to the empty list.  No statement in the body throws (the gateway
returns its failures), so the body is a total function. -/
def scrapeBody (env : PipelineEnv) (query : String) (st : GatewayState) :
    List YouTubeVideo × GatewayState :=
  if !env.apiKey then (getFallbackVideos query, st)
  else
    let ((bestVideo, _), st') :=
      [0, 1, 2, 3].foldl (fun acc i => processQuery env i acc) ((none, 0), st)
    match bestVideo with
    | none => (getFallbackVideos query, st')
    | some video => (splitVideoIntoSegments video query, st')

/-- Function `scrapeYouTubeVideos` with its `try`/`catch`: a thrown error whose message
mentions quota is re-raised as the distinguished quota error, anything else
falls back — but the body never throws, so the catch arm is formally present
and dead. -/
def scrapeYouTubeVideos (env : PipelineEnv) (query : String) (st : GatewayState) :
    Except String (List YouTubeVideo) × GatewayState :=
  let (videos, st') := scrapeBody env query st
  match (Except.ok videos : Except String (List YouTubeVideo)) with
  | .ok v => (.ok v, st')
  | .error e =>
    if jsIncludes e "quota" then
      (.error "YouTube API quota exceeded. Please try again later.", st')
    else (.ok (getFallbackVideos query), st')

/-- Function `fetchYouTubeVideos`: sort the scraped list by difficulty; any raised
error — including a re-raised quota error — is absorbed into the fallback
empty list. -/
def fetchYouTubeVideos (env : PipelineEnv) (query : String) (st : GatewayState) :
    List YouTubeVideo × GatewayState :=
  match scrapeYouTubeVideos env query st with
  | (.ok videos, st') => (sortVideosByDifficulty videos, st')
  | (.error _, st') => (getFallbackVideos query, st')

/-- The parsed request body: the JSON parse of `request.json()` failed, or it
yielded a prompt field (`none` for a missing or non-string prompt). -/
inductive ReqBody where
  | parseFail
  | withPrompt (prompt? : Option String)
deriving DecidableEq, Repr

/-- The HTTP response of the route. -/
structure HttpResponse where
  status : Nat
  videos? : Option (List YouTubeVideo) := none
  errMsg? : Option String := none
deriving DecidableEq, Repr

/-- The `catch` block of `POST`: quota messages map to 429, everything else
to 500. -/
def postCatch (msg : String) : HttpResponse :=
  if jsIncludes msg "quota" then
    ⟨429, none, some "YouTube API quota exceeded. Please try again later."⟩
  else ⟨500, none, some "Failed to fetch videos"⟩

/-- Handler `POST` from `src/app/api/getVideos/route.ts`: parse the body, validate the
prompt (`!prompt || typeof prompt !== 'string'` rejects a missing,
non-string or empty prompt with 400), fetch, and answer 200 with the video
list.  A JSON parse failure of the body is the only reachable throw and goes
through the catch block. -/
def POST (env : PipelineEnv) (body : ReqBody) (st : GatewayState) :
    HttpResponse × GatewayState :=
  match body with
  | .parseFail => (postCatch "Unexpected token", st)
  | .withPrompt prompt? =>
    match prompt? with
    | none => (⟨400, none, some "Valid prompt is required"⟩, st)
    | some prompt =>
      if prompt == "" then (⟨400, none, some "Valid prompt is required"⟩, st)
      else
        let (videos, st') := fetchYouTubeVideos env prompt st
        (⟨200, some videos, none⟩, st')

/-! ## Invariant checkers for segment and marker lists -/

/-- Decidable check: consecutive segments are contiguous
(`endTime = startTime` of the successor). -/
def contiguousB : List Segment → Bool
  | [] => true
  | [_] => true
  | a :: b :: rest => a.endTime == b.startTime && contiguousB (b :: rest)

/-- Decidable check: segments are strictly ascending by start time. -/
def ascendingB : List Segment → Bool
  | [] => true
  | [_] => true
  | a :: b :: rest => decide (a.startTime < b.startTime) && ascendingB (b :: rest)

/-- Decidable check: every segment is non-degenerate and ends within the
video (`startSeconds < endSeconds ≤ total`). -/
def withinB (total : Nat) (l : List Segment) : Bool :=
  l.all fun s => decide (s.startTime < s.endTime) && decide (s.endTime ≤ total)

/-- End time of the last segment, when any. -/
def lastEnd? (l : List Segment) : Option Nat := l.getLast?.map fun s => s.endTime

/-- Decidable check: markers are strictly ascending by time. -/
def markersAscB : List Marker → Bool
  | [] => true
  | [_] => true
  | a :: b :: rest => decide (a.time < b.time) && markersAscB (b :: rest)

/-- Non-strict sortedness by time (used to show every extracted marker list
is strictly ascending). -/
def markersLeB : List Marker → Bool
  | [] => true
  | [_] => true
  | a :: b :: rest => decide (a.time ≤ b.time) && markersLeB (b :: rest)

/-! ## Concrete environments for the HTTP boundary -/

/-- A clock stream for concrete pipeline runs. -/
def c4Clock : Nat → Int := fun i => 1000000 + 200 * i

/-- An environment in which every outbound call answers 403 with a
quota-exhaustion body. -/
def c4QuotaEnv : PipelineEnv :=
  { apiKey := true
    searchCall := fun _ _ =>
      .resp 403 (some ⟨[]⟩) (some "The request cannot be completed because you have exceeded your quota.") none "e"
    detailsCall := fun _ _ =>
      .resp 403 (some ⟨[]⟩) (some "The request cannot be completed because you have exceeded your quota.") none "e"
    clock := c4Clock }

/-! ## Concrete sanity checks and theorems -/

example : parseDurationToSeconds "PT1H2M3S" = 3723 := by decide

example : parseDurationToSeconds "PT45M" = 2700 := by decide

example : parseDurationToSeconds "garbage" = 0 := by decide

example : formatSecondsToDuration 3723 = "PT1H2M3S" := by decide

example : formatSecondsToDuration 0 = "PT" := by decide

example : isLongVideo "PT29M59S" = false := by decide

example : isLongVideo "PT30M" = true := by decide
example : isLongVideo "PT30M0S" = true := by decide

example :
    extractTimestampsFromDescription "0:00 Intro\n5:30 Setup\n12:00 Advanced" =
      [⟨330, "Setup"⟩, ⟨720, "Advanced"⟩] := by decide

example :
    createSegmentsFromTimestamps
      [⟨0, "Intro"⟩, ⟨330, "Setup"⟩, ⟨720, "Advanced"⟩] 900 =
      [⟨0, 330, "Intro"⟩, ⟨330, 720, "Setup"⟩, ⟨720, 900, "Advanced"⟩] := by decide

example : calculateDifficultyScore ⟨"introduction", "professional"⟩ "" = 0 := by decide

example : calculateDifficultyScore ⟨"Enterprise architecture", "for pros"⟩ "" = 2 := by decide

example : calculateDifficultyScore ⟨"Deep dive", "into monads"⟩ "" = 1 := by decide

example : calculateDifficultyScore ⟨"stuff", "things"⟩ "" = 1 := by decide

/-! ## Lemmas: decimal printing and the duration codec -/

theorem digitChar_isDigit (n : Nat) (h : n < 10) : (digitChar n).isDigit = true := by
  interval_cases n <;> decide

theorem digitVal_digitChar (n : Nat) (h : n < 10) : digitVal (digitChar n) = n := by
  interval_cases n <;> decide

theorem digitsToNat_append (xs : List Char) (c : Char) :
    digitsToNat (xs ++ [c]) = 10 * digitsToNat xs + digitVal c := by
  simp [digitsToNat, List.foldl_append]
  omega

theorem natToDecimalAux_roundtrip (fuel : Nat) :
    ∀ n : Nat, n < 10 ^ fuel → digitsToNat (natToDecimalAux fuel n) = n := by
  induction fuel with
  | zero =>
    intro n h
    have h0 : n = 0 := by omega
    subst h0; rfl
  | succ fuel ih =>
    intro n h
    by_cases h10 : n < 10
    · simp [natToDecimalAux, h10, digitsToNat, digitVal_digitChar n h10]
    · have hdiv : n / 10 < 10 ^ fuel := by
        rw [Nat.div_lt_iff_lt_mul (by omega)]
        calc n < 10 ^ (fuel + 1) := h
        _ = 10 ^ fuel * 10 := by ring
      simp [natToDecimalAux, h10, digitsToNat_append, ih (n / 10) hdiv,
        digitVal_digitChar (n % 10) (Nat.mod_lt n (by omega))]
      omega

theorem lt_ten_pow_succ (n : Nat) : n < 10 ^ (n + 1) := by
  induction n with
  | zero => decide
  | succ n ih =>
    have h : 10 ^ (n + 1) ≤ 10 ^ (n + 2) := Nat.pow_le_pow_right (by omega) (by omega)
    omega

theorem natToDecimal_roundtrip (n : Nat) : digitsToNat (natToDecimal n) = n :=
  natToDecimalAux_roundtrip (n + 1) n (lt_ten_pow_succ n)

theorem natToDecimalAux_digits (fuel : Nat) :
    ∀ n : Nat, ∀ c ∈ natToDecimalAux fuel n, c.isDigit = true := by
  induction fuel with
  | zero => intro n c hc; simp [natToDecimalAux] at hc
  | succ fuel ih =>
    intro n c hc
    by_cases h10 : n < 10
    · simp [natToDecimalAux, h10] at hc
      simp [hc, digitChar_isDigit n h10]
    · simp [natToDecimalAux, h10] at hc
      rcases hc with hc | hc
      · exact ih (n / 10) c hc
      · simp [hc, digitChar_isDigit (n % 10) (Nat.mod_lt n (by omega))]

theorem natToDecimal_digits (n : Nat) : ∀ c ∈ natToDecimal n, c.isDigit = true :=
  natToDecimalAux_digits (n + 1) n

theorem natToDecimal_ne_nil (n : Nat) : natToDecimal n ≠ [] := by
  unfold natToDecimal natToDecimalAux
  by_cases h10 : n < 10 <;> simp [h10]

theorem takeWhile_append_of_all (p : Char → Bool) (xs ys : List Char)
    (h : ∀ x ∈ xs, p x = true) :
    (xs ++ ys).takeWhile p = xs ++ ys.takeWhile p := by
  induction xs with
  | nil => simp
  | cons x xs ih =>
    simp only [List.cons_append, List.takeWhile_cons, h x (by simp)]
    simp [ih (fun a ha => h a (by simp [ha]))]

/-- The optional regex group consumes a printed number followed by its unit. -/
theorem parseGroup_consume (u : Char) (hu : u.isDigit = false) (k : Nat) (rest : List Char) :
    parseGroup u (natToDecimal k ++ u :: rest) = (some k, rest) := by
  have htw : (natToDecimal k ++ u :: rest).takeWhile Char.isDigit = natToDecimal k := by
    rw [takeWhile_append_of_all Char.isDigit _ _ (natToDecimal_digits k)]
    simp [List.takeWhile_cons, hu]
  have hdrop : (natToDecimal k ++ u :: rest).drop (natToDecimal k).length = u :: rest := by
    simp [List.drop_append]
  simp [parseGroup, htw, hdrop, natToDecimal_ne_nil k, natToDecimal_roundtrip k]

/-- The optional regex group is skipped, consuming nothing, when the digit run
is followed by a different unit letter. -/
theorem parseGroup_skip (u v : Char) (hv : v.isDigit = false) (hvu : v ≠ u)
    (k : Nat) (rest : List Char) :
    parseGroup u (natToDecimal k ++ v :: rest) = (none, natToDecimal k ++ v :: rest) := by
  have htw : (natToDecimal k ++ v :: rest).takeWhile Char.isDigit = natToDecimal k := by
    rw [takeWhile_append_of_all Char.isDigit _ _ (natToDecimal_digits k)]
    simp [List.takeWhile_cons, hv]
  have hdrop : (natToDecimal k ++ v :: rest).drop (natToDecimal k).length = v :: rest := by
    simp [List.drop_append]
  simp [parseGroup, htw, hdrop, natToDecimal_ne_nil k, hvu]

/-- The optional regex group is skipped on input not starting with a digit. -/
theorem parseGroup_nondigit (u : Char) (cs : List Char)
    (h : ∀ c, cs.head? = some c → c.isDigit = false) :
    parseGroup u cs = (none, cs) := by
  cases cs with
  | nil => simp [parseGroup]
  | cons c rest => simp [parseGroup, List.takeWhile_cons, h c rfl]

theorem findPT_cons (rest : List Char) : findPT ('P' :: 'T' :: rest) = some rest := rfl

theorem toList_mk (l : List Char) : (String.mk l).toList = l := rfl

theorem toList_append (s t : String) : (s ++ t).toList = s.toList ++ t.toList := rfl

/-- Formatting any number of seconds and parsing the result recovers the same
number of seconds. -/
theorem parse_format_roundtrip (n : Nat) :
    parseDurationToSeconds (formatSecondsToDuration n) = n := by
  have e1 : 3600 * (n / 3600) + n % 3600 = n := Nat.div_add_mod n 3600
  have e2 : 60 * (n % 3600 / 60) + n % 3600 % 60 = n % 3600 := Nat.div_add_mod (n % 3600) 60
  have e3 : n % 3600 % 60 = n % 60 := Nat.mod_mod_of_dvd n (by norm_num)
  by_cases hh : 0 < n / 3600 <;> by_cases hm : 0 < n % 3600 / 60 <;> by_cases hs : 0 < n % 60 <;>
    · simp only [formatSecondsToDuration, hh, hm, hs, if_true, if_false, ite_true, ite_false,
        parseDurationToSeconds, natStr, toList_append, toList_mk]
      simp only [show "PT".toList = ['P', 'T'] from rfl, show "H".toList = ['H'] from rfl,
        show "M".toList = ['M'] from rfl, show "S".toList = ['S'] from rfl,
        List.append_assoc, List.nil_append, List.append_nil, List.cons_append]
      simp only [findPT_cons,
        parseGroup_consume 'H' (by decide), parseGroup_consume 'M' (by decide),
        parseGroup_consume 'S' (by decide),
        parseGroup_skip 'H' 'M' (by decide) (by decide),
        parseGroup_skip 'H' 'S' (by decide) (by decide),
        parseGroup_skip 'M' 'S' (by decide) (by decide),
        parseGroup_nondigit 'H' [] (by intro c hc; simp at hc),
        parseGroup_nondigit 'M' [] (by intro c hc; simp at hc),
        parseGroup_nondigit 'S' [] (by intro c hc; simp at hc),
        Option.getD_some, Option.getD_none]
      omega

/-- C7: for every string — in particular every valid `PT` duration string —
re-parsing the formatted value of `parseDurationToSeconds(s)` yields the same
total number of seconds, although the formatted string need not equal `s`. -/
theorem C7_duration_roundtrip (s : String) :
    parseDurationToSeconds (formatSecondsToDuration (parseDurationToSeconds s)) =
      parseDurationToSeconds s :=
  parse_format_roundtrip (parseDurationToSeconds s)

/-! ## Lemmas: the timestamp extractor only emits guarded markers -/

theorem mem_dedupAdjAux (x : Marker) :
    ∀ (prev : Marker) (l : List Marker), x ∈ dedupAdjAux prev l → x ∈ l := by
  intro prev l
  induction l generalizing prev with
  | nil => simp [dedupAdjAux]
  | cons y ys ih =>
    intro hx
    simp only [dedupAdjAux] at hx
    by_cases h : (y.time == prev.time) = true
    · simp only [h, if_true] at hx
      exact List.mem_cons_of_mem y (ih y hx)
    · simp only [h, if_false] at hx
      rcases List.mem_cons.mp hx with h1 | h1
      · simp [h1]
      · exact List.mem_cons_of_mem y (ih y h1)

theorem mem_dedupAdj (x : Marker) (l : List Marker) (h : x ∈ dedupAdj l) : x ∈ l := by
  cases l with
  | nil => simp [dedupAdj] at h
  | cons y ys =>
    simp only [dedupAdj] at h
    rcases List.mem_cons.mp h with h1 | h1
    · simp [h1]
    · exact List.mem_cons_of_mem y (mem_dedupAdjAux x y ys h1)

theorem mem_insertByTime (x y : Marker) (l : List Marker)
    (h : x ∈ insertByTime y l) : x = y ∨ x ∈ l := by
  induction l with
  | nil => simp [insertByTime] at h; simp [h]
  | cons z zs ih =>
    simp only [insertByTime] at h
    by_cases hle : y.time ≤ z.time
    · simp only [hle, if_true] at h
      rcases List.mem_cons.mp h with h1 | h1
      · simp [h1]
      · simp [List.mem_cons.mp h1]
    · simp only [hle, if_false] at h
      rcases List.mem_cons.mp h with h1 | h1
      · simp [h1]
      · rcases ih h1 with h2 | h2
        · simp [h2]
        · simp [h2]

theorem mem_sortByTime (x : Marker) (l : List Marker) (h : x ∈ sortByTime l) : x ∈ l := by
  induction l with
  | nil => simp [sortByTime] at h
  | cons y ys ih =>
    simp only [sortByTime] at h
    rcases mem_insertByTime x y (sortByTime ys) h with h1 | h1
    · simp [h1]
    · exact List.mem_cons_of_mem y (ih h1)

/-- C10: every marker the extractor returns has a strictly positive offset
and a non-empty title; in particular a `0:00 …` chapter line never appears in
the output. -/
theorem C10_markers_positive_nonempty (description : String) (m : Marker)
    (hm : m ∈ extractTimestampsFromDescription description) :
    0 < m.time ∧ m.title ≠ "" := by
  unfold extractTimestampsFromDescription at hm
  have h1 := mem_sortByTime m _ (mem_dedupAdj m _ hm)
  rcases List.mem_filterMap.mp h1 with ⟨p, _, hp⟩
  by_cases hc : (parseTimeStringToSeconds p.1 > 0 && (jsTrim p.2).length > 0) = true
  · simp only [hc, if_true, Option.some.injEq] at hp
    rcases (Bool.and_eq_true _ _).mp hc with ⟨ht, hl⟩
    subst hp
    refine ⟨by simpa using ht, ?_⟩
    intro hempty
    have : (jsTrim p.2) = [] := by
      have := congrArg String.data hempty
      simpa using this
    simp [this] at hl
  · simp [hc] at hp

/-- C10 witness. -/
theorem C10_markers_witness :
    (⟨330, "Setup"⟩ : Marker) ∈ extractTimestampsFromDescription "5:30 Setup" ∧
      0 < (⟨330, "Setup"⟩ : Marker).time ∧ (⟨330, "Setup"⟩ : Marker).title ≠ "" :=
  ⟨by decide, C10_markers_positive_nonempty "5:30 Setup" ⟨330, "Setup"⟩ (by decide)⟩

/-- C1 counterexample: on the spec's example description the extractor does
not return the three claimed markers — the `(0, "Intro")` marker is dropped
because its converted time is 0 (the guard keeps a match only when
`timeInSeconds > 0`). -/
theorem C1_counterexample :
    extractTimestampsFromDescription "0:00 Intro\n5:30 Setup\n12:00 Advanced" ≠
      [⟨0, "Intro"⟩, ⟨330, "Setup"⟩, ⟨720, "Advanced"⟩] := by
  decide

/-- C1 amended: on that description the extractor returns exactly
`[(330, "Setup"), (720, "Advanced")]`, in that order; a match is kept only
when its converted time is strictly positive and its trimmed title is
non-empty. -/
theorem C1_amended_extraction :
    extractTimestampsFromDescription "0:00 Intro\n5:30 Setup\n12:00 Advanced" =
      [⟨330, "Setup"⟩, ⟨720, "Advanced"⟩] := by
  decide

theorem range_five : List.range 5 = [0, 1, 2, 3, 4] := by rfl

/-- C2 (amended): the equal-split fallback always returns exactly 5 segments,
each of exactly `⌊total / 5⌋` seconds — including the final one, whose end is
`min(5 ⌊total / 5⌋, total) = 5 ⌊total / 5⌋`, so the clamp never absorbs a
remainder and the durations sum to `5 ⌊total / 5⌋` rather than to the total;
at `total = 1000` this gives five segments of 200 seconds. -/
theorem C2_equal_split (totalSeconds : Nat) (query : String) :
    (createEqualSegments totalSeconds query).length = 5 ∧
    (createEqualSegments totalSeconds query).map (fun s => s.endTime - s.startTime) =
      List.replicate 5 (totalSeconds / 5) ∧
    lastEnd? (createEqualSegments totalSeconds query) = some (5 * (totalSeconds / 5)) ∧
    ((createEqualSegments totalSeconds query).map (fun s => s.endTime - s.startTime)).sum =
      5 * (totalSeconds / 5) ∧
    (createEqualSegments 1000 "course topic").map (fun s => s.endTime - s.startTime) =
      List.replicate 5 200 := by
  have h5 : totalSeconds / 5 * 5 ≤ totalSeconds := Nat.div_mul_le_self totalSeconds 5
  refine ⟨?_, ?_, ?_, ?_, by decide⟩ <;>
    simp [createEqualSegments, range_five, lastEnd?, List.replicate] <;> omega

/-- C2 counterexample: on a 6-second video the five durations sum to 5, not
to the total 6, and the final end is 5, not 6 — the remainder is lost. -/
theorem C2_counterexample :
    ((createEqualSegments 6 "graphql").map (fun s => s.endTime - s.startTime)).sum ≠ 6 ∧
    lastEnd? (createEqualSegments 6 "graphql") ≠ some 6 := by
  decide

theorem segments_from_timestamps_contiguous (ts : List Marker) (total : Nat) :
    contiguousB (createSegmentsFromTimestamps ts total) = true := by
  induction ts with
  | nil => rfl
  | cons t rest ih =>
    cases rest with
    | nil => rfl
    | cons u rest' =>
      simp only [createSegmentsFromTimestamps] at ih ⊢
      simp [contiguousB, ih]

theorem segments_from_timestamps_ascending (ts : List Marker) (total : Nat)
    (hchain : markersAscB ts = true) (hlt : ts.all (fun t => t.time < total) = true) :
    ascendingB (createSegmentsFromTimestamps ts total) = true := by
  induction ts with
  | nil => rfl
  | cons t rest ih =>
    cases rest with
    | nil => rfl
    | cons u rest' =>
      simp only [markersAscB, Bool.and_eq_true] at hchain
      simp only [List.all_cons, Bool.and_eq_true] at hlt
      simp only [createSegmentsFromTimestamps] at ih ⊢
      simp only [ascendingB, Bool.and_eq_true]
      refine ⟨by simpa using hchain.1, ?_⟩
      have := ih hchain.2 (by simp [hlt.2.1, hlt.2.2])
      simpa [createSegmentsFromTimestamps] using this

theorem segments_from_timestamps_within (ts : List Marker) (total : Nat)
    (hchain : markersAscB ts = true) (hlt : ts.all (fun t => t.time < total) = true) :
    withinB total (createSegmentsFromTimestamps ts total) = true := by
  induction ts with
  | nil => rfl
  | cons t rest ih =>
    cases rest with
    | nil =>
      simp only [List.all_cons, Bool.and_eq_true] at hlt
      simp only [createSegmentsFromTimestamps, withinB, List.all_cons, List.all_nil,
        Bool.and_eq_true]
      have ht : t.time < total := by simpa using hlt.1
      refine ⟨⟨by simp [ht], by simp⟩, trivial⟩
    | cons u rest' =>
      simp only [markersAscB, Bool.and_eq_true] at hchain
      simp only [List.all_cons, Bool.and_eq_true] at hlt
      have tail := ih hchain.2 (by simp [hlt.2.1, hlt.2.2])
      simp only [createSegmentsFromTimestamps, withinB, List.all_cons, Bool.and_eq_true] at tail ⊢
      refine ⟨⟨by simpa using hchain.1, ?_⟩, tail⟩
      have hu : u.time < total := by simpa using hlt.2.1
      simp
      omega

theorem segments_from_timestamps_lastEnd (ts : List Marker) (total : Nat) (h : ts ≠ []) :
    lastEnd? (createSegmentsFromTimestamps ts total) = some total := by
  induction ts with
  | nil => exact absurd rfl h
  | cons t rest ih =>
    cases rest with
    | nil => rfl
    | cons u rest' =>
      simp only [createSegmentsFromTimestamps] at ih ⊢
      have := ih (by simp)
      simpa [lastEnd?, List.getLast?_cons_cons] using this

theorem equal_segments_invariants (total : Nat) (query : String) (h5 : 5 ≤ total) :
    contiguousB (createEqualSegments total query) = true ∧
    ascendingB (createEqualSegments total query) = true ∧
    withinB total (createEqualSegments total query) = true ∧
    lastEnd? (createEqualSegments total query) = some (5 * (total / 5)) := by
  have hdm : total / 5 * 5 ≤ total := Nat.div_mul_le_self total 5
  have hd1 : 1 ≤ total / 5 := (Nat.le_div_iff_mul_le (by omega)).mpr (by omega)
  refine ⟨?_, ?_, ?_, ?_⟩ <;>
    simp [createEqualSegments, range_five, contiguousB, ascendingB, withinB, lastEnd?] <;>
    omega

/-- C3 (amended): segments built from a strictly ascending marker list whose
offsets all lie below the total duration satisfy the full invariant
(`start < end ≤ total`, contiguous, ascending, last end = total); the
equal-split fallback satisfies contiguity, ascending order and
`start < end ≤ total` whenever `total ≥ 5`, but its last end is
`5 ⌊total / 5⌋`, which equals the total only when 5 divides it. -/
theorem C3_segment_invariants :
    (∀ (ts : List Marker) (total : Nat),
      markersAscB ts = true → ts.all (fun t => t.time < total) = true →
      contiguousB (createSegmentsFromTimestamps ts total) = true ∧
      ascendingB (createSegmentsFromTimestamps ts total) = true ∧
      withinB total (createSegmentsFromTimestamps ts total) = true ∧
      (ts ≠ [] → lastEnd? (createSegmentsFromTimestamps ts total) = some total)) ∧
    (∀ (total : Nat) (query : String), 5 ≤ total →
      contiguousB (createEqualSegments total query) = true ∧
      ascendingB (createEqualSegments total query) = true ∧
      withinB total (createEqualSegments total query) = true ∧
      lastEnd? (createEqualSegments total query) = some (5 * (total / 5))) :=
  ⟨fun ts total hchain hlt =>
    ⟨segments_from_timestamps_contiguous ts total,
     segments_from_timestamps_ascending ts total hchain hlt,
     segments_from_timestamps_within ts total hchain hlt,
     fun hne => segments_from_timestamps_lastEnd ts total hne⟩,
   fun total query h5 => equal_segments_invariants total query h5⟩

/-- C3 witness. -/
theorem C3_segment_invariants_witness :
    contiguousB (createSegmentsFromTimestamps [⟨330, "Setup"⟩, ⟨720, "Advanced"⟩] 900) = true ∧
    ascendingB (createSegmentsFromTimestamps [⟨330, "Setup"⟩, ⟨720, "Advanced"⟩] 900) = true ∧
    withinB 900 (createSegmentsFromTimestamps [⟨330, "Setup"⟩, ⟨720, "Advanced"⟩] 900) = true ∧
    lastEnd? (createSegmentsFromTimestamps [⟨330, "Setup"⟩, ⟨720, "Advanced"⟩] 900) = some 900 ∧
    contiguousB (createEqualSegments 1000 "react") = true ∧
    ascendingB (createEqualSegments 1000 "react") = true ∧
    withinB 1000 (createEqualSegments 1000 "react") = true ∧
    lastEnd? (createEqualSegments 1000 "react") = some 1000 := by
  have h1 := C3_segment_invariants.1 [⟨330, "Setup"⟩, ⟨720, "Advanced"⟩] 900
    (by decide) (by decide)
  have h2 := C3_segment_invariants.2 1000 "react" (by decide)
  exact ⟨h1.1, h1.2.1, h1.2.2.1, h1.2.2.2 (by decide), h2.1, h2.2.1, h2.2.2.1,
    by simpa using h2.2.2.2⟩

/-- C3 counterexample: the equal-split fallback violates the claimed
invariant — on a 1003-second video the last segment ends at 1000, not at the
total duration, and on a 3-second video the segments are degenerate
(`start = end`), violating `startSeconds < endSeconds`. -/
theorem C3_counterexample :
    lastEnd? (createEqualSegments 1003 "web development") ≠ some 1003 ∧
    withinB 3 (createEqualSegments 3 "web development") = false := by
  decide

theorem insertByTime_le_cons (x : Marker) :
    ∀ (ys : List Marker) (y : Marker), y.time ≤ x.time → markersLeB (y :: ys) = true →
      markersLeB (y :: insertByTime x ys) = true := by
  intro ys
  induction ys with
  | nil =>
    intro y hyx _
    simp [insertByTime, markersLeB, hyx]
  | cons z zs ih =>
    intro y hyx h
    simp only [markersLeB, Bool.and_eq_true, decide_eq_true_eq] at h
    simp only [insertByTime]
    by_cases hxz : x.time ≤ z.time
    · simp only [hxz, if_true]
      simp [markersLeB, hyx, hxz, h.2]
    · simp only [hxz, if_false]
      simp only [markersLeB, Bool.and_eq_true, decide_eq_true_eq]
      exact ⟨h.1, ih z (by omega) (by simp [markersLeB, h.2])⟩

theorem insertByTime_le (x : Marker) (l : List Marker) (h : markersLeB l = true) :
    markersLeB (insertByTime x l) = true := by
  cases l with
  | nil => rfl
  | cons y ys =>
    simp only [insertByTime]
    by_cases hxy : x.time ≤ y.time
    · simp only [hxy, if_true]
      simp [markersLeB, hxy, h]
    · simp only [hxy, if_false]
      exact insertByTime_le_cons x ys y (by omega) h

theorem sortByTime_le (l : List Marker) : markersLeB (sortByTime l) = true := by
  induction l with
  | nil => rfl
  | cons x xs ih => exact insertByTime_le x (sortByTime xs) ih

theorem ascB_replace_head (a b : Marker) (l : List Marker) (hab : b.time = a.time)
    (h : markersAscB (a :: l) = true) : markersAscB (b :: l) = true := by
  cases l with
  | nil => rfl
  | cons c cs =>
    simp only [markersAscB, Bool.and_eq_true, decide_eq_true_eq] at h ⊢
    exact ⟨by omega, h.2⟩

theorem dedupAdjAux_asc :
    ∀ (l : List Marker) (prev : Marker), markersLeB (prev :: l) = true →
      markersAscB (prev :: dedupAdjAux prev l) = true := by
  intro l
  induction l with
  | nil => intro prev _; rfl
  | cons y ys ih =>
    intro prev h
    simp only [markersLeB, Bool.and_eq_true, decide_eq_true_eq] at h
    simp only [dedupAdjAux]
    by_cases heq : (y.time == prev.time) = true
    · simp only [heq, if_true]
      have hy : prev.time = y.time := by
        have := beq_iff_eq.mp heq
        omega
      exact ascB_replace_head y prev _ hy (ih y h.2)
    · simp only [heq, if_false]
      have hy : y.time ≠ prev.time := by simpa using heq
      simp only [markersAscB, Bool.and_eq_true, decide_eq_true_eq]
      exact ⟨by omega, ih y h.2⟩

/-- Every extracted marker list is strictly ascending in time. -/
theorem dedup_sort_asc (ts : List Marker) :
    markersAscB (dedupAdj (sortByTime ts)) = true := by
  cases hsort : sortByTime ts with
  | nil => rfl
  | cons x xs =>
    simp only [dedupAdj]
    have hle : markersLeB (x :: xs) = true := by
      rw [← hsort]; exact sortByTime_le ts
    exact dedupAdjAux_asc xs x hle

/-- Every extracted marker list is strictly ascending in time. -/
theorem extract_strict_ascending (description : String) :
    markersAscB (extractTimestampsFromDescription description) = true :=
  dedup_sort_asc _

/-! ## Lemmas: difficulty classification priority -/

theorem any_eq_false_of_forall (l : List String) (p : String → Bool)
    (h : ∀ k ∈ l, p k = false) : l.any p = false := by
  apply Bool.eq_false_iff.mpr
  intro htrue
  rcases List.any_eq_true.mp htrue with ⟨x, hx, hfx⟩
  rw [h x hx] at hfx
  exact Bool.false_ne_true hfx

/-- C8: on the lowercased concatenation of title and description, the three
keyword sets are checked in strict priority order — any beginner keyword
yields level 0 (even when expert keywords are also present), otherwise any
expert keyword yields level 2, otherwise the result is level 1 (whether an
intermediate keyword matches or not); in particular, a text carrying both
`introduction` and `professional` resolves to level 0. -/
theorem C8_difficulty_priority :
    (∀ (video : TitledItem) (query : String),
      ((∃ k ∈ beginnerKeywords, jsIncludes (difficultyText video) k = true) →
        calculateDifficultyScore video query = 0) ∧
      ((∀ k ∈ beginnerKeywords, jsIncludes (difficultyText video) k = false) →
        (∃ k ∈ expertKeywords, jsIncludes (difficultyText video) k = true) →
        calculateDifficultyScore video query = 2) ∧
      ((∀ k ∈ beginnerKeywords, jsIncludes (difficultyText video) k = false) →
        (∀ k ∈ expertKeywords, jsIncludes (difficultyText video) k = false) →
        calculateDifficultyScore video query = 1)) ∧
    calculateDifficultyScore ⟨"introduction", "professional"⟩ "" = 0 := by
  refine ⟨fun video query => ⟨?_, ?_, ?_⟩, by decide⟩
  · rintro ⟨k, hk, hinc⟩
    have hb : beginnerKeywords.any (fun keyword => jsIncludes (difficultyText video) keyword) =
        true := List.any_eq_true.mpr ⟨k, hk, hinc⟩
    simp [calculateDifficultyScore, hb]
  · rintro hnone ⟨k, hk, hinc⟩
    have hb := any_eq_false_of_forall beginnerKeywords
      (fun keyword => jsIncludes (difficultyText video) keyword) hnone
    have he : expertKeywords.any (fun keyword => jsIncludes (difficultyText video) keyword) =
        true := List.any_eq_true.mpr ⟨k, hk, hinc⟩
    simp [calculateDifficultyScore, hb, he]
  · intro hnob hnoe
    have hb := any_eq_false_of_forall beginnerKeywords
      (fun keyword => jsIncludes (difficultyText video) keyword) hnob
    have he := any_eq_false_of_forall expertKeywords
      (fun keyword => jsIncludes (difficultyText video) keyword) hnoe
    simp [calculateDifficultyScore, hb, he]

/-- C8 witness. -/
theorem C8_difficulty_witness :
    calculateDifficultyScore ⟨"introduction", "professional"⟩ "" = 0 :=
  (C8_difficulty_priority.1 ⟨"introduction", "professional"⟩ "").1
    ⟨"introduction", by decide, by decide⟩

/-! ## Lemmas: gateway behavior -/

/-- C5: whenever an attempt of `throttle` receives a 403 response whose body
signals quota exhaustion, the loop returns the distinguished quota-exceeded
error within that very attempt: the effect trace ends at that attempt's
dispatch — no further dispatch and no backoff sleep — for every remaining
fuel, every `maxRetries` and every state. -/
theorem C5_quota_no_retry (α : Type) (clock : Nat → Int) (apiCall : Nat → CallOutcome α)
    (maxRetries : Nat) (backoffMultiplier delayMs : Int) (lastError : Option String)
    (st : GatewayState) (fuel attempt : Nat) (b : α) (em : String)
    (ra : Option Nat) (je : String)
    (hcall : apiCall attempt = .resp 403 (some b) (some em) ra je)
    (hq : jsIncludes em "quota" = true) :
    throttleGo α clock apiCall maxRetries backoffMultiplier (fuel + 1) attempt delayMs
        lastError st =
      (⟨none, some "YouTube API quota exceeded. Please try again later.", 500⟩,
       updateRequestTracking clock (waitForRateLimit clock st).1,
       (waitForRateLimit clock st).2 ++ [Effect.call attempt]) := by
  have h429 : ((403 : Nat) == 429) = false := by decide
  have h403 : ((403 : Nat) == 403) = true := by decide
  have hmsg : (("YouTube API quota exceeded. Please try again later." : String) == "") = false :=
    by decide
  have hqmsg : jsIncludes "YouTube API quota exceeded. Please try again later." "quota" = true :=
    by decide
  simp [throttleGo, attemptStep, hcall, h429, h403, quotaBody, hq, catchBranch, hqmsg,
    mkFinal, hmsg]

/-- C5 witness. -/
theorem C5_quota_no_retry_witness :
    ((fun _ : Nat => CallOutcome.resp 403 (some (0 : Nat)) (some "quota exceeded") none "e") 0 =
      CallOutcome.resp 403 (some (0 : Nat)) (some "quota exceeded") none "e") ∧
    jsIncludes "quota exceeded" "quota" = true ∧
    throttleGo Nat (fun i => 1000000 + 200 * i)
      (fun _ => CallOutcome.resp 403 (some 0) (some "quota exceeded") none "e")
      3 2 (3 + 1) 0 100 none {} =
      (⟨none, some "YouTube API quota exceeded. Please try again later.", 500⟩,
       updateRequestTracking (fun i => 1000000 + 200 * i)
         (waitForRateLimit (fun i => 1000000 + 200 * i) {}).1,
       (waitForRateLimit (fun i => 1000000 + 200 * i) {}).2 ++ [Effect.call 0]) :=
  ⟨rfl, by decide,
   C5_quota_no_retry Nat (fun i => 1000000 + 200 * i)
     (fun _ => CallOutcome.resp 403 (some 0) (some "quota exceeded") none "e")
     3 2 100 none {} 3 0 0 "quota exceeded" none "e" rfl (by decide)⟩

theorem catchBranch_state (α : Type) (maxRetries : Nat) (backoffMultiplier : Int)
    (attempt : Nat) (delay : Int) (msg : String) (st : GatewayState) (effs : List Effect) :
    (catchBranch α maxRetries backoffMultiplier attempt delay msg st effs).2.1 = st := by
  unfold catchBranch
  split
  · rfl
  · split <;> rfl

/-- C6 counterexample: a run whose single attempt receives a 429 response
still records a dispatch timestamp — the sliding window grows from `[]` to
one entry, refuting that the window is unchanged after a non-2xx attempt. -/
theorem C6_counterexample :
    (throttle String (fun i => 1000000 + 1000 * i)
        (fun _ => CallOutcome.resp 429 (some "jsonbody") none (some 5) "e")
        ⟨100, 0, 2⟩ {}).2.1.requestTimes = [1001000] ∧
    ({} : GatewayState).requestTimes = [] := by
  decide

/-- C6 (amended): the gateway records a dispatch timestamp after every
attempt that receives an HTTP response of any status — 2xx, 429, 403 or any
other — because `updateRequestTracking` runs before the status checks; the
window (beyond the pruning done by `waitForRateLimit`) stays unchanged only
when the wrapped call itself throws instead of responding. -/
theorem C6_tracking_amended (α : Type) (clock : Nat → Int) (apiCall : Nat → CallOutcome α)
    (maxRetries : Nat) (backoffMultiplier delayMs : Int) (lastError : Option String)
    (attempt : Nat) (st : GatewayState) :
    (∀ (status : Nat) (body? : Option α) (errMsg? : Option String)
        (retryAfter? : Option Nat) (jsonErrMsg : String),
      apiCall attempt = CallOutcome.resp status body? errMsg? retryAfter? jsonErrMsg →
      (attemptStep α clock apiCall maxRetries backoffMultiplier attempt delayMs
          lastError st).2.1.requestTimes =
        (waitForRateLimit clock st).1.requestTimes ++
          [clock (waitForRateLimit clock st).1.clockIdx]) ∧
    (∀ msg : String,
      apiCall attempt = CallOutcome.thrown msg →
      (attemptStep α clock apiCall maxRetries backoffMultiplier attempt delayMs
          lastError st).2.1.requestTimes =
        (waitForRateLimit clock st).1.requestTimes) := by
  constructor
  · intro status body? errMsg? retryAfter? jsonErrMsg h
    simp only [attemptStep, h]
    split
    · simp [updateRequestTracking]
    · split
      · simp [catchBranch_state, updateRequestTracking]
      · split
        · cases body? with
          | some d => simp [updateRequestTracking]
          | none => simp [catchBranch_state, updateRequestTracking]
        · simp [catchBranch_state, updateRequestTracking]
  · intro msg h
    simp [attemptStep, h, catchBranch_state]

/-- C6 witness. -/
theorem C6_tracking_witness :
    ((fun _ : Nat => CallOutcome.resp 429 (some "b") none none "e") 0 =
      CallOutcome.resp 429 (some ("b" : String)) none none "e") ∧
    (attemptStep String (fun i => 5000 + 10 * i)
        (fun _ => CallOutcome.resp 429 (some "b") none none "e")
        3 2 0 100 none {}).2.1.requestTimes =
      (waitForRateLimit (fun i => 5000 + 10 * i) ({} : GatewayState)).1.requestTimes ++
        [(fun i : Nat => (5000 : Int) + 10 * i)
          (waitForRateLimit (fun i => 5000 + 10 * i) ({} : GatewayState)).1.clockIdx] ∧
    (attemptStep String (fun i => 5000 + 10 * i)
        (fun _ => CallOutcome.thrown "network down")
        3 2 0 100 none {}).2.1.requestTimes =
      (waitForRateLimit (fun i => 5000 + 10 * i) ({} : GatewayState)).1.requestTimes :=
  ⟨rfl,
   (C6_tracking_amended String (fun i => 5000 + 10 * i)
      (fun _ => CallOutcome.resp 429 (some "b") none none "e") 3 2 100 none 0 {}).1
     429 (some "b") none none "e" rfl,
   (C6_tracking_amended String (fun i => 5000 + 10 * i)
      (fun _ => CallOutcome.thrown "network down") 3 2 100 none 0 {}).2
     "network down" rfl⟩

theorem mkFinal_shape (α : Type) (lastError : Option String) :
    (mkFinal α lastError).data? = none ∧
    (∃ m, (mkFinal α lastError).error? = some m) ∧ (mkFinal α lastError).status = 500 := by
  exact ⟨rfl, ⟨_, rfl⟩, rfl⟩

theorem catchBranch_done (α : Type) (maxRetries : Nat) (backoffMultiplier : Int)
    (attempt : Nat) (delay : Int) (msg : String) (st : GatewayState) (effs : List Effect)
    (r : ApiResponse α) (st' : GatewayState) (effs' : List Effect)
    (h : catchBranch α maxRetries backoffMultiplier attempt delay msg st effs =
      (.done r, st', effs')) :
    r = mkFinal α (some msg) := by
  unfold catchBranch at h
  split at h
  · cases h; rfl
  · split at h <;> cases h

theorem attemptStep_done_shape (α : Type) (clock : Nat → Int) (apiCall : Nat → CallOutcome α)
    (maxRetries : Nat) (backoffMultiplier : Int) (attempt : Nat) (delay : Int)
    (lastError : Option String) (st : GatewayState) (r : ApiResponse α)
    (st' : GatewayState) (effs : List Effect)
    (h : attemptStep α clock apiCall maxRetries backoffMultiplier attempt delay lastError st =
      (.done r, st', effs)) :
    (∃ d, r.data? = some d ∧ r.error? = none ∧ 200 ≤ r.status ∧ r.status ≤ 299) ∨
    (r.data? = none ∧ (∃ m, r.error? = some m) ∧ r.status = 500) := by
  cases hc : apiCall attempt with
  | thrown msg =>
    simp only [attemptStep, hc] at h
    right
    rw [catchBranch_done α _ _ _ _ _ _ _ _ _ _ h]
    exact mkFinal_shape α (some msg)
  | resp status body? errMsg? retryAfter? jsonErrMsg =>
    simp only [attemptStep, hc] at h
    split at h
    · cases h
    · split at h
      · right
        rw [catchBranch_done α _ _ _ _ _ _ _ _ _ _ h]
        exact mkFinal_shape α _
      · split at h
        · rename_i hok
          cases hb : body? with
          | some d =>
            rw [hb] at h
            cases h
            rcases (Bool.and_eq_true _ _).mp hok with ⟨h200, h299⟩
            exact Or.inl ⟨d, rfl, rfl, by simpa using h200, by simpa using h299⟩
          | none =>
            rw [hb] at h
            right
            rw [catchBranch_done α _ _ _ _ _ _ _ _ _ _ h]
            exact mkFinal_shape α _
        · right
          rw [catchBranch_done α _ _ _ _ _ _ _ _ _ _ h]
          exact mkFinal_shape α _

theorem throttleGo_shape (α : Type) (clock : Nat → Int) (apiCall : Nat → CallOutcome α)
    (maxRetries : Nat) (backoffMultiplier : Int) :
    ∀ (fuel attempt : Nat) (delay : Int) (lastError : Option String) (st : GatewayState),
      (∃ d, (throttleGo α clock apiCall maxRetries backoffMultiplier fuel attempt delay
          lastError st).1.data? = some d ∧
        (throttleGo α clock apiCall maxRetries backoffMultiplier fuel attempt delay
          lastError st).1.error? = none ∧
        200 ≤ (throttleGo α clock apiCall maxRetries backoffMultiplier fuel attempt delay
          lastError st).1.status ∧
        (throttleGo α clock apiCall maxRetries backoffMultiplier fuel attempt delay
          lastError st).1.status ≤ 299) ∨
      ((throttleGo α clock apiCall maxRetries backoffMultiplier fuel attempt delay
          lastError st).1.data? = none ∧
        (∃ m, (throttleGo α clock apiCall maxRetries backoffMultiplier fuel attempt delay
          lastError st).1.error? = some m) ∧
        (throttleGo α clock apiCall maxRetries backoffMultiplier fuel attempt delay
          lastError st).1.status = 500) := by
  intro fuel
  induction fuel with
  | zero =>
    intro attempt delay lastError st
    right
    exact mkFinal_shape α lastError
  | succ fuel ih =>
    intro attempt delay lastError st
    rcases ha : attemptStep α clock apiCall maxRetries backoffMultiplier attempt delay
        lastError st with ⟨ctrl, st', effs⟩
    cases ctrl with
    | done r =>
      have := attemptStep_done_shape α clock apiCall maxRetries backoffMultiplier attempt
        delay lastError st r st' effs ha
      simp only [throttleGo, ha]
      rcases this with ⟨d, h1, h2, h3, h4⟩ | ⟨h1, ⟨m, h2⟩, h3⟩
      · exact Or.inl ⟨d, h1, h2, h3, h4⟩
      · exact Or.inr ⟨h1, ⟨m, h2⟩, h3⟩
    | toNext delay' lastError' =>
      simp only [throttleGo, ha]
      exact ih (attempt + 1) delay' lastError' st'

/-- C9: `throttle` is total at its interface — for every behavior of the
wrapped call and every option setting it returns an `ApiResponse` that is
either a success (data present, no error, 2xx status) or a failure report
carrying an error message and the 500 status marker; in particular a
quota-exhausting 403 yields the returned quota error with status 500 rather
than an exception. -/
theorem C9_throttle_totality (α : Type) (clock : Nat → Int) (apiCall : Nat → CallOutcome α)
    (options : ThrottleOptions) (st : GatewayState) :
    ((∃ d, (throttle α clock apiCall options st).1.data? = some d ∧
        (throttle α clock apiCall options st).1.error? = none ∧
        200 ≤ (throttle α clock apiCall options st).1.status ∧
        (throttle α clock apiCall options st).1.status ≤ 299) ∨
      ((throttle α clock apiCall options st).1.data? = none ∧
        (∃ m, (throttle α clock apiCall options st).1.error? = some m) ∧
        (throttle α clock apiCall options st).1.status = 500)) ∧
    (throttle String (fun i => 1000000 + 200 * i)
        (fun _ => CallOutcome.resp 403 (some "jsonbody") (some "daily quota exceeded") none "e")
        ytOptions {}).1 =
      ⟨none, some "YouTube API quota exceeded. Please try again later.", 500⟩ :=
  ⟨throttleGo_shape α clock apiCall options.maxRetries options.backoffMultiplier
    (options.maxRetries + 1) 0 options.delayMs none st, by decide⟩

/-- C4 counterexample: with every provider call answering a quota-exhausting
403 — so the gateway raises and then returns the distinguished quota error —
the HTTP boundary answers 200 with an empty video list, not 429: the quota
condition never propagates out of the pipeline. -/
theorem C4_counterexample :
    (throttle SearchResponse c4Clock (c4QuotaEnv.searchCall 0) ytOptions {}).1 =
      ⟨none, some "YouTube API quota exceeded. Please try again later.", 500⟩ ∧
    (POST c4QuotaEnv (.withPrompt (some "react")) {}).1 = ⟨200, some [], none⟩ ∧
    (POST c4QuotaEnv (.withPrompt (some "react")) {}).1.status ≠ 429 := by
  refine ⟨by decide, by decide, by decide⟩

/-- C4 (amended): the route's `catch` does map a thrown quota error to HTTP
429, but no quota error ever reaches it — the gateway converts quota
exhaustion into a returned error result and the orchestrator absorbs every
search/detail failure — so for every environment the response status is never
429, and every request with a valid prompt receives 200 with a well-formed
(possibly empty) video array. -/
theorem C4_quota_absorbed :
    (∀ (env : PipelineEnv) (body : ReqBody) (st : GatewayState),
      (POST env body st).1.status ≠ 429) ∧
    (∀ (env : PipelineEnv) (prompt : String) (st : GatewayState),
      (prompt == "") = false →
      (POST env (.withPrompt (some prompt)) st).1.status = 200 ∧
      ∃ vs, (POST env (.withPrompt (some prompt)) st).1.videos? = some vs) := by
  have hN : jsIncludes "Unexpected token" "quota" = false := by decide
  constructor
  · intro env body st
    cases body with
    | parseFail => simp [POST, postCatch, hN]
    | withPrompt prompt? =>
      cases prompt? with
      | none => simp [POST]
      | some prompt =>
        by_cases hp : (prompt == "") = true
        · simp [POST, hp]
        · simp [POST, hp]
  · intro env prompt st hp
    refine ⟨by simp [POST, hp], ⟨(fetchYouTubeVideos env prompt st).1, by simp [POST, hp]⟩⟩

/-- C4 witness. -/
theorem C4_quota_absorbed_witness :
    (("react" : String) == "") = false ∧
    (POST c4QuotaEnv (.withPrompt (some "react")) {}).1.status = 200 ∧
    ∃ vs, (POST c4QuotaEnv (.withPrompt (some "react")) {}).1.videos? = some vs :=
  ⟨by decide,
   (C4_quota_absorbed.2 c4QuotaEnv "react" {} (by decide)).1,
   (C4_quota_absorbed.2 c4QuotaEnv "react" {} (by decide)).2⟩
